import Mathlib

/-!
Verification of the catalog-browser query pipeline, stats cache and client
mirror, as implemented in `backend/src/routes/items.js`,
`backend/src/routes/stats.js` and `frontend/src/state/DataContext.js`.

JavaScript strings are modelled as Lean `String` (code points), JavaScript
numbers as `Rat` (the arithmetic in the sources only ever manipulates decimal
literals, integers and their sums/quotients, which `Rat` represents exactly),
and absent object fields as `Option`.
-/

namespace Catalog

/-! ## JavaScript primitive operations -/

/-- Model of `String.prototype.trim`: drop whitespace from both ends. -/
def jsTrim (s : String) : String :=
  String.mk (((s.toList.dropWhile (·.isWhitespace)).reverse.dropWhile (·.isWhitespace)).reverse)

/-- Model of `String.prototype.toLowerCase` (ASCII case mapping). -/
def jsToLower (s : String) : String :=
  String.mk (s.toList.map Char.toLower)

/-- Lexicographic comparison of character lists (by code point). -/
def listLtChar : List Char → List Char → Bool
  | [], [] => false
  | [], _ :: _ => true
  | _ :: _, [] => false
  | a :: as, b :: bs => if a < b then true else if b < a then false else listLtChar as bs

/-- Model of JavaScript's `<` on strings: lexicographic comparison. -/
def jsStrLt (s t : String) : Bool := listLtChar s.toList t.toList

/-- Model of `String.prototype.includes`: contiguous substring containment. -/
def jsIncludes (s sub : String) : Bool :=
  decide (sub.toList <:+: s.toList)

/-- Numeric value of a (hexadecimal) digit character. -/
def hexCharVal (c : Char) : Nat :=
  if c.isDigit then c.toNat - '0'.toNat
  else if 'a' ≤ c ∧ c ≤ 'f' then c.toNat - 'a'.toNat + 10
  else if 'A' ≤ c ∧ c ≤ 'F' then c.toNat - 'A'.toNat + 10
  else 0

/-- Value of a digit string in the given base. -/
def digitsVal (base : Nat) (ds : List Char) : Nat :=
  ds.foldl (fun acc c => acc * base + hexCharVal c) 0

/-- Whether a character is a hexadecimal digit. -/
def isHexDigitChar (c : Char) : Bool :=
  c.isDigit || ('a' ≤ c && c ≤ 'f') || ('A' ≤ c && c ≤ 'F')

/-- Model of `parseInt(s)` (no explicit radix): skip leading whitespace, read an
optional sign, then a `0x`/`0X`-prefixed hexadecimal or a decimal digit run;
`none` models the `NaN` result. Trailing garbage is ignored, so `"12abc"`
parses to `12`. -/
def jsParseInt (s : String) : Option Int :=
  let cs := s.toList.dropWhile (·.isWhitespace)
  let signed : Int × List Char :=
    match cs with
    | '-' :: rest => (-1, rest)
    | '+' :: rest => (1, rest)
    | _ => (1, cs)
  let sign := signed.1
  let body := signed.2
  let hexBody : Option (List Char) :=
    match body with
    | '0' :: 'x' :: rest => some rest
    | '0' :: 'X' :: rest => some rest
    | _ => none
  match hexBody with
  | some rest =>
    let digs := rest.takeWhile isHexDigitChar
    if digs.isEmpty then none else some (sign * (digitsVal 16 digs : Nat))
  | none =>
    let digs := body.takeWhile (·.isDigit)
    if digs.isEmpty then none else some (sign * (digitsVal 10 digs : Nat))

/-- Model of `parseInt(x) || d` on an already-parsed value: `NaN` (`none`) and
`0` are falsy and fall back to the default. -/
def jsOrInt (v : Option Int) (d : Int) : Int :=
  match v with
  | none => d
  | some n => if n = 0 then d else n

/-- Model of `x || d` on an optional string: `undefined` and `""` are falsy. -/
def jsOrStr (v : Option String) (d : String) : String :=
  match v with
  | none => d
  | some s => if s = "" then d else s

/-- Model of `x || null` on an optional string: `undefined` and `""` become `null`. -/
def jsFalsyOrNull (v : Option String) : Option String :=
  match v with
  | none => none
  | some s => if s = "" then none else some s

/-- Model of `Array.prototype.slice(start, end)`: negative indices count from
the end, indices are clamped to `[0, length]`. -/
def jsSlice {α : Type} (l : List α) (s e : Int) : List α :=
  let n : Int := l.length
  let s' := if s < 0 then max (n + s) 0 else min s n
  let e' := if e < 0 then max (n + e) 0 else min e n
  (l.drop s'.toNat).take (e' - s').toNat

/-- Model of `Math.round`: round half toward positive infinity. -/
def jsMathRound (q : Rat) : Int := ⌊q + (1 : Rat) / 2⌋

/-- Model of `Math.ceil` on an exact rational. -/
def jsCeil (q : Rat) : Int := ⌈q⌉

/-- Decimal rendering of a rational, matching `Number.prototype.toString` on the
values that occur as item prices: integers print with no fractional part
("5", not "5.00"), other decimal fractions print with the least number of
fractional digits ("25.5", "10.99"). Rationals needing more than 20 fractional
digits (which no parsed JSON price in this code base does) fall back to a
truncated rendering. -/
def jsRatToString (q : Rat) : String :=
  let sign := if q.num < 0 then "-" else ""
  let k := (((List.range 21).find? (fun k => (q * (10 : Rat) ^ k).den == 1)).getD 0)
  let m := q.num.natAbs * 10 ^ k / q.den
  if k = 0 then sign ++ toString m
  else
    let digs := toString m |>.toList
    let digs := if digs.length ≤ k then List.replicate (k + 1 - digs.length) '0' ++ digs else digs
    let ipLen := digs.length - k
    sign ++ String.mk (digs.take ipLen) ++ "." ++ String.mk (digs.drop ipLen)

/-! ## Data model -/

/-- An item of the persisted JSON collection (spec section 3). -/
structure Item where
  id : Nat
  name : String
  price : Option Rat := none
  category : Option String := none
  description : Option String := none
  createdAt : Option String := none
deriving DecidableEq, Repr

/-- A JavaScript value as read by `a[field]` from an item. -/
inductive JsVal where
  | str : String → JsVal
  | num : Rat → JsVal
  | undefined : JsVal
deriving DecidableEq, Repr

/-- Dynamic field access `item[field]` for the fields the pipeline sorts by;
any unknown field reads as `undefined`. -/
def Item.getField (it : Item) (f : String) : JsVal :=
  if f = "id" then .num it.id
  else if f = "name" then .str it.name
  else if f = "price" then (match it.price with | some p => .num p | none => .undefined)
  else if f = "category" then (match it.category with | some c => .str c | none => .undefined)
  else if f = "description" then (match it.description with | some d => .str d | none => .undefined)
  else if f = "createdAt" then (match it.createdAt with | some d => .str d | none => .undefined)
  else .undefined

/-! ## Server query pipeline (`backend/src/routes/items.js`) -/

/-- The searchable fields of an item, in source order:
`[item.name, item.category, item.description, item.id?.toString(), item.price?.toString()]`.
`none` models a field that reads as `undefined`. -/
def searchableFields (it : Item) : List (Option String) :=
  [some it.name,
   it.category,
   it.description,
   some (toString it.id),
   it.price.map jsRatToString]

/-- One disjunct of the search predicate:
`field && field.toString().toLowerCase().includes(searchTerm)` —
`undefined` and the empty string are falsy and never match. -/
def fieldMatches (field : Option String) (term : String) : Bool :=
  match field with
  | none => false
  | some s => if s = "" then false else jsIncludes (jsToLower s) term

/-- The free-text search predicate: OR over the searchable fields. -/
def searchMatches (it : Item) (term : String) : Bool :=
  (searchableFields it).any (fun f => fieldMatches f term)

/-- `searchItems(items, query)`: identity when the query is falsy or trims to
empty, else keep the items matching `query.toLowerCase().trim()`. -/
def searchItems (items : List Item) (query : Option String) : List Item :=
  match query with
  | none => items
  | some q =>
    if q = "" ∨ jsTrim q = "" then items
    else items.filter (fun it => searchMatches it (jsTrim (jsToLower q)))

/-- The category predicate of the list route:
`item.category && item.category.toLowerCase() === category.toLowerCase().trim()`. -/
def categoryPred (it : Item) (c : String) : Bool :=
  match it.category with
  | none => false
  | some ic => if ic = "" then false else jsToLower ic == jsTrim (jsToLower c)

/-- The category-filter step of the list route, guarded by
`if (category && category.trim() !== '')`. -/
def applyCategoryFilter (items : List Item) (category : Option String) : List Item :=
  match category with
  | none => items
  | some c =>
    if c = "" ∨ jsTrim c = "" then items
    else items.filter (fun it => categoryPred it c)

/-- The sort fields accepted by `sortItems`. -/
def validSortFields : List String := ["id", "name", "price", "category", "createdAt"]

/-- The field `sortItems` really sorts by: an unrecognized `sortBy` silently
becomes `"id"`. -/
def effSortField (sortBy : String) : String :=
  if validSortFields.contains sortBy then sortBy else "id"

/-- The direction flag of `sortItems`: `sortOrder` is lowercased and anything
other than `"desc"` means ascending. -/
def effSortDesc (sortOrder : String) : Bool := jsToLower sortOrder == "desc"

/-- The body of the sort comparator on two already-read field values: when the
first value is a string it is lowercased and a falsy second value (undefined or
"") is coerced to `""`; otherwise the values compare with JavaScript's `<`/`>`,
under which any comparison against `undefined` is false, yielding 0. (A
string/number mix on one field cannot arise for the typed fields above; the
catch-all follows the same false/false convention.) -/
def jsCompareVals (a b : JsVal) : Int :=
  match a with
  | .str s =>
    let s' := jsToLower s
    let t' : String :=
      match b with
      | .str t => if t = "" then "" else jsToLower t
      | _ => ""
    if jsStrLt s' t' then -1 else if jsStrLt t' s' then 1 else 0
  | .num q =>
    match b with
    | .num r => if q < r then -1 else if r < q then 1 else 0
    | _ => 0
  | .undefined => 0

/-- The comparator passed to `sort` by `sortItems`: compare the `field` values,
with `desc` flipping the sign of the result (the comparison direction, not the
sorted array). -/
def itemComparator (field : String) (desc : Bool) (a b : Item) : Int :=
  let base := jsCompareVals (a.getField field) (b.getField field)
  if desc then -base else base

/-- The (propositional) "a sorts no later than b" relation induced by the
comparator; a stable sort consistent with the comparator keeps `a` before `b`
exactly when the comparator is ≤ 0. -/
def sortLe (field : String) (desc : Bool) (a b : Item) : Prop :=
  itemComparator field desc a b ≤ 0

instance (field : String) (desc : Bool) : DecidableRel (sortLe field desc) :=
  fun a b => inferInstanceAs (Decidable (itemComparator field desc a b ≤ 0))

/-- `sortItems(items, sortBy, sortOrder)`: stable sort of a copy of the list by
the (validated) sort field; an unrecognized field silently becomes `id`,
`sortOrder` is lowercased and anything other than `"desc"` means ascending.
JavaScript's `Array.prototype.sort` with a comparator is modelled by the stable
`List.insertionSort` on the relation `comparator ≤ 0`. -/
def sortItems (items : List Item) (sortBy sortOrder : String) : List Item :=
  List.insertionSort (sortLe (effSortField sortBy) (effSortDesc sortOrder)) items

/-- Pagination metadata, mirroring the JSON shape of `paginateItems`. -/
structure Pagination where
  currentPage : Int
  totalPages : Int
  totalItems : Int
  itemsPerPage : Int
  hasNextPage : Bool
  hasPrevPage : Bool
  nextPage : Option Int
  prevPage : Option Int
deriving DecidableEq, Repr

/-- The result of `paginateItems`: the page slice plus pagination metadata. -/
structure PageSlice where
  items : List Item
  pagination : Pagination
deriving DecidableEq, Repr

/-- Effective page number: `Math.max(1, parseInt(page) || 1)`. -/
def effPage (page : Option Int) : Int := max 1 (jsOrInt page 1)

/-- Effective page size: `Math.min(100, Math.max(1, parseInt(limit) || 10))`. -/
def effLimit (limit : Option Int) : Int := min 100 (max 1 (jsOrInt limit 10))

/-- `paginateItems(items, page, limit)`: clamp the parameters, slice the window
`[(page-1)*limit, (page-1)*limit + limit)` and derive the metadata. -/
def paginateItems (items : List Item) (page limit : Option Int) : PageSlice :=
  let pageNum := effPage page
  let limitNum := effLimit limit
  let startIndex := (pageNum - 1) * limitNum
  let endIndex := startIndex + limitNum
  let paginatedItems := jsSlice items startIndex endIndex
  let totalItems : Int := items.length
  let totalPages := jsCeil ((totalItems : Rat) / (limitNum : Rat))
  { items := paginatedItems
    pagination :=
      { currentPage := pageNum
        totalPages := totalPages
        totalItems := totalItems
        itemsPerPage := limitNum
        hasNextPage := decide (pageNum < totalPages)
        hasPrevPage := decide (pageNum > 1)
        nextPage := if pageNum < totalPages then some (pageNum + 1) else none
        prevPage := if pageNum > 1 then some (pageNum - 1) else none } }

/-- The `search` metadata block of the list response. -/
structure SearchMeta where
  query : Option String
  category : Option String
  sortBy : String
  sortOrder : String
  resultsFound : Int
deriving DecidableEq, Repr

/-- The full JSON shape of the `GET /api/items` response. -/
structure ItemsResponse where
  items : List Item
  pagination : Pagination
  search : SearchMeta
deriving DecidableEq, Repr

/-- The free-text-search step of the list route, guarded by
`if (searchQuery)` (`undefined` and `""` are falsy). -/
def searchStage (items : List Item) (q : Option String) : List Item :=
  match q with
  | none => items
  | some s => if s = "" then items else searchItems items (some s)

/-- The filtered-and-sorted sequence of the `GET /api/items` handler: category
filter, then free-text search, then sort; `sortBy`/`sortOrder` default to
`"id"`/`"asc"` by destructuring when the parameter is absent. -/
def filteredSorted (data : List Item) (q category sortBy sortOrder : Option String) :
    List Item :=
  sortItems (searchStage (applyCategoryFilter data category) q)
    (sortBy.getD "id") (sortOrder.getD "asc")

/-- The `GET /api/items` handler after a successful read: the filtered and
sorted sequence is paginated, and `resultsFound` is its length, computed
before slicing. -/
def itemsQuery (data : List Item) (q category sortBy sortOrder : Option String)
    (page limit : Option Int) : ItemsResponse :=
  let sorted := filteredSorted data q category sortBy sortOrder
  let paged := paginateItems sorted page limit
  { items := paged.items
    pagination := paged.pagination
    search :=
      { query := jsFalsyOrNull q
        category := jsFalsyOrNull category
        sortBy := sortBy.getD "id"
        sortOrder := sortOrder.getD "asc"
        resultsFound := sorted.length } }

/-- Outcome of reading and JSON-parsing the backing file. `fail` covers both a
non-`ENOENT` read error and a JSON parse error (either rejects the promise with
a non-`ENOENT` error). -/
inductive ReadOutcome where
  | ok : List Item → ReadOutcome
  | absent : ReadOutcome
  | fail : String → ReadOutcome
deriving DecidableEq, Repr

/-- `readData()` from `items.js`: an `ENOENT` failure yields the empty
collection, any other failure propagates. -/
def readData : ReadOutcome → Except String (List Item)
  | .ok items => .ok items
  | .absent => .ok []
  | .fail e => .error e

/-- The `GET /api/items` handler including the read: a read failure bubbles to
the error middleware as a 500 with the error message. -/
def itemsIndexRoute (ro : ReadOutcome) (q category sortBy sortOrder : Option String)
    (page limit : Option Int) : Except String ItemsResponse :=
  match readData ro with
  | .error e => .error e
  | .ok data => .ok (itemsQuery data q category sortBy sortOrder page limit)

/-- Result of the `GET /api/items/:id` handler: the item, or a status code and
error message fed to the error middleware. -/
inductive IdRouteResult where
  | ok : Item → IdRouteResult
  | err : Nat → String → IdRouteResult
deriving DecidableEq, Repr

/-- The `GET /api/items/:id` handler: it awaits `readData()` first, then
parses the id (`parseInt`; `NaN` produces the 400), then looks the item up
(absence produces the 404). -/
def getItemByIdRoute (ro : ReadOutcome) (idStr : String) : IdRouteResult :=
  match readData ro with
  | .error e => .err 500 e
  | .ok data =>
    match jsParseInt idStr with
    | none => .err 400 "Invalid item ID"
    | some itemId =>
      match data.find? (fun i => (i.id : Int) == itemId) with
      | none => .err 404 "Item not found"
      | some item => .ok item

/-! ## Stats route (`backend/src/routes/stats.js`) -/

/-- The `{total, averagePrice}` payload of `GET /api/stats`. -/
structure Stats where
  total : Nat
  averagePrice : Rat
deriving DecidableEq, Repr

/-- The module-level `statsCache` object. -/
structure StatsCache where
  data : Option Stats
  timestamp : Int
  fileModTime : Int
deriving DecidableEq, Repr

/-- `CACHE_TTL = 5 * 60 * 1000` milliseconds. -/
def CACHE_TTL : Int := 5 * 60 * 1000

/-- `isCacheValid()`: false when no cached data or the cache age exceeds the
TTL; the backing file's modification time plays no part here. -/
def isCacheValid (c : StatsCache) (now : Int) : Bool :=
  if c.data.isNone ∨ now - c.timestamp > CACHE_TTL then false else true

/-- The parts of the file system the stats route consults: the stat result
(`none` models a failed `fs.stat`, e.g. an absent file) and the read outcome. -/
structure FsView where
  mtime : Option Int
  read : ReadOutcome
deriving DecidableEq, Repr

/-- `getFileModTime()`: the file's mtime in ms, or 0 when `fs.stat` fails. -/
def getFileModTime (fs : FsView) : Int := fs.mtime.getD 0

/-- `calculateStats(items)`: the count, and the mean price (non-numeric prices
defaulting to 0) rounded with `Math.round(x * 100) / 100`; an empty collection
short-circuits to `{total: 0, averagePrice: 0}`. -/
def calculateStats (items : List Item) : Stats :=
  let total := items.length
  if total = 0 then { total := 0, averagePrice := 0 }
  else
    let totalPrice : Rat :=
      items.foldl (fun acc cur => acc + (match cur.price with | some p => p | none => 0)) 0
    { total := total
      averagePrice := (jsMathRound (totalPrice / (total : Rat) * 100) : Rat) / 100 }

/-- The read-and-fill tail of `loadAndCacheStats`: on a successful read the
cache gets the fresh stats, timestamp and mtime; on `ENOENT` the cache gets
`{total: 0, averagePrice: 0}` and a fresh timestamp (the recorded mtime is left
untouched by that branch of the code); any other failure propagates and leaves
the cache unchanged. -/
def loadFreshStats (fs : FsView) (c : StatsCache) (now : Int) (current : Int) :
    Except String Stats × StatsCache :=
  match fs.read with
  | .ok items =>
    let stats := calculateStats items
    (.ok stats, { data := some stats, timestamp := now, fileModTime := current })
  | .absent =>
    let emptyStats : Stats := { total := 0, averagePrice := 0 }
    (.ok emptyStats, { c with data := some emptyStats, timestamp := now })
  | .fail e => (.error e, c)

/-- `loadAndCacheStats()`: serve the cache when cached data exists, the
recorded mtime equals the current one and the cache is within TTL; otherwise
read, recompute and refill. -/
def loadAndCacheStats (fs : FsView) (c : StatsCache) (now : Int) :
    Except String Stats × StatsCache :=
  let current := getFileModTime fs
  match c.data with
  | some d =>
    if c.fileModTime = current ∧ isCacheValid c now then (.ok d, c)
    else loadFreshStats fs c now current
  | none => loadFreshStats fs c now current

/-- The `GET /api/stats` handler: serve the cached data whenever
`isCacheValid()` holds, else call `loadAndCacheStats`. The boolean records
whether the handler went past the cache check (i.e. a recompute path ran). -/
def statsGetRoute (fs : FsView) (c : StatsCache) (now : Int) :
    Except String Stats × StatsCache × Bool :=
  match c.data, isCacheValid c now with
  | some d, true => (.ok d, c, false)
  | _, _ =>
    let r := loadAndCacheStats fs c now
    (r.1, r.2, true)

/-! ## Client mirror (`frontend/src/state/DataContext.js`) -/

/-- The client's category predicate:
`item.category && item.category.toLowerCase() === category.toLowerCase()` —
unlike the server, the query category is not trimmed. -/
def clientCategoryPred (it : Item) (c : String) : Bool :=
  match it.category with
  | none => false
  | some ic => if ic = "" then false else jsToLower ic == jsToLower c

/-- The client's sort comparator: raw `a[sortBy]` access with no field
validation, and ascending only when `sortOrder` is exactly `"asc"`. -/
def clientItemComparator (field sortOrder : String) (a b : Item) : Int :=
  let base := jsCompareVals (a.getField field) (b.getField field)
  if sortOrder = "asc" then base else -base

/-- The client comparator's "sorts no later than" relation. -/
def clientSortLe (field sortOrder : String) (a b : Item) : Prop :=
  clientItemComparator field sortOrder a b ≤ 0

instance (field sortOrder : String) : DecidableRel (clientSortLe field sortOrder) :=
  fun a b => inferInstanceAs (Decidable (clientItemComparator field sortOrder a b ≤ 0))

/-- The client's free-text-search step, guarded by `if (q && q.trim())`; its
filter body is the same inline predicate as the server's `searchItems`. -/
def clientSearchStage (items : List Item) (q : Option String) : List Item :=
  match q with
  | none => items
  | some s =>
    if s = "" ∨ jsTrim s = "" then items
    else items.filter (fun it => searchMatches it (jsTrim (jsToLower s)))

/-- The client's category step, guarded by `if (category)` alone. -/
def clientCategoryStage (items : List Item) (category : Option String) : List Item :=
  match category with
  | none => items
  | some c =>
    if c = "" then items
    else items.filter (fun it => clientCategoryPred it c)

/-- The client's sort step, guarded by `if (sortBy && filteredItems.length > 0)`. -/
def clientSortStage (items : List Item) (sortByV sortOrderV : String) : List Item :=
  if sortByV = "" ∨ items.isEmpty then items
  else List.insertionSort (clientSortLe sortByV sortOrderV) items

/-- `processItemsClientSide(rawItems, searchParams)`: free-text search first,
then category filter, then an in-place sort; `sortBy`/`sortOrder` default to
`"id"`/`"asc"` by destructuring when absent. -/
def processItemsClientSide (rawItems : List Item)
    (q category sortBy sortOrder : Option String) : List Item :=
  clientSortStage (clientCategoryStage (clientSearchStage rawItems q) category)
    (sortBy.getD "id") (sortOrder.getD "asc")

/-- The fallback branch of `fetchItems`: run `processItemsClientSide`, slice
with `parseInt(limit) || 12` and `parseInt(page) || 1` (no clamping), and build
the pagination and search metadata the same JSON shape as the server's. -/
def clientQuery (rawItems : List Item) (q category sortBy sortOrder : Option String)
    (page limit : Option Int) : ItemsResponse :=
  let filteredItems := processItemsClientSide rawItems q category sortBy sortOrder
  let itemsPerPage := jsOrInt limit 12
  let currentPage := jsOrInt page 1
  let startIndex := (currentPage - 1) * itemsPerPage
  let endIndex := startIndex + itemsPerPage
  let paginatedItems := jsSlice filteredItems startIndex endIndex
  let totalItems : Int := filteredItems.length
  let totalPages := jsCeil ((totalItems : Rat) / (itemsPerPage : Rat))
  { items := paginatedItems
    pagination :=
      { currentPage := currentPage
        totalPages := totalPages
        totalItems := totalItems
        itemsPerPage := itemsPerPage
        hasNextPage := decide (currentPage < totalPages)
        hasPrevPage := decide (currentPage > 1)
        nextPage := if currentPage < totalPages then some (currentPage + 1) else none
        prevPage := if currentPage > 1 then some (currentPage - 1) else none }
    search :=
      { query := jsFalsyOrNull q
        category := jsFalsyOrNull category
        sortBy := jsOrStr sortBy "id"
        sortOrder := jsOrStr sortOrder "asc"
        resultsFound := filteredItems.length } }

/-! ## Item creation -/

/-- The request body of `POST /api/items`. -/
structure NewItemPayload where
  name : Option String := none
  price : Option Rat := none
  category : Option String := none
  description : Option String := none
deriving DecidableEq, Repr

/-- Modelled from the spec: the `POST /api/items` handler itself is not among
the sources (only its test suite is). Per spec sections 3, 7 and 8 and the
router tests: a missing, null or empty(-after-trim) name is rejected with
400 "Item name is required" before any I/O; a price that is present but
negative is rejected with 400 "Price must be a valid positive number";
name, category and description are trimmed; the new item gets
`id = Date.now()` (`nowMs`) and a `createdAt` string, is appended to the
collection read from the file, and the whole collection is rewritten. The
result is the created item and the rewritten collection. -/
def createItem (data : List Item) (p : NewItemPayload) (nowMs : Nat)
    (createdAt : String) : Except (Nat × String) (Item × List Item) :=
  match p.name with
  | none => .error (400, "Item name is required")
  | some nm =>
    if jsTrim nm = "" then .error (400, "Item name is required")
    else
      let newItem : Item :=
        { id := nowMs
          name := jsTrim nm
          price := p.price
          category := p.category.map jsTrim
          description := p.description.map jsTrim
          createdAt := some createdAt }
      match p.price with
      | some pr =>
        if pr < 0 then .error (400, "Price must be a valid positive number")
        else .ok (newItem, data ++ [newItem])
      | none => .ok (newItem, data ++ [newItem])

/-! ## Spec-side reference definitions

These follow the specification's words rather than the source, for comparison
against the definitions above. -/

/-- The search predicate exactly as the spec phrases it: ANY of name, category,
description, stringified id, stringified price case-insensitively contains the
search term as a substring (no falsiness guard). -/
def claimSearchPred (it : Item) (term : String) : Bool :=
  jsIncludes (jsToLower it.name) term
  || (match it.category with | some c => jsIncludes (jsToLower c) term | none => false)
  || (match it.description with | some d => jsIncludes (jsToLower d) term | none => false)
  || jsIncludes (jsToLower (toString it.id)) term
  || (match it.price with | some p => jsIncludes (jsToLower (jsRatToString p)) term | none => false)

/-- The category predicate exactly as the claim phrases it: the item has a
category whose lowercased value equals the lowercased, trimmed query category. -/
def claimCategoryPred (it : Item) (c : String) : Bool :=
  match it.category with
  | none => false
  | some ic => jsToLower ic == jsToLower (jsTrim c)

/-- Round half away from zero, as the spec requires for the average price. -/
def roundHalfAwayFromZero (q : Rat) : Int :=
  if q < 0 then -⌊-q + (1 : Rat) / 2⌋ else ⌊q + (1 : Rat) / 2⌋

/-- The average price as the spec phrases it: sum of the prices (non-numeric
defaulting to 0) divided by the count, rounded to 2 decimal places with
round-half-away-from-zero at the cent boundary; 0 for an empty collection. -/
def specAveragePrice (items : List Item) : Rat :=
  if items.length = 0 then 0
  else
    let mean := (items.map (fun it => it.price.getD 0)).sum / (items.length : Rat)
    (roundHalfAwayFromZero (mean * 100) : Rat) / 100

/-! ## Test fixtures (the router test suite's mock data) -/

/-- Mock item 1 from the router tests. -/
def testItem1 : Item := { id := 1, name := "Test Item 1", price := some 10.99, category := some "electronics" }

/-- Mock item 2 from the router tests. -/
def testItem2 : Item := { id := 2, name := "Test Item 2", price := some 25.50, category := some "books" }

/-- Mock item 3 from the router tests. -/
def testItem3 : Item := { id := 3, name := "Another Item", price := some 5.00, category := some "electronics" }

/-- The router tests' mock collection. -/
def mockItems : List Item := [testItem1, testItem2, testItem3]

/-! ## Helper lemmas on characters and strings -/

theorem whitespace_toLower (c : Char) :
    (Char.toLower c).isWhitespace = c.isWhitespace := by
  unfold Char.toLower
  simp only []
  by_cases h : c.toNat ≥ 65 ∧ c.toNat ≤ 90
  · rw [if_pos h]
    obtain ⟨h1, h2⟩ := h
    have hws : c.isWhitespace = false := by
      simp only [Char.isWhitespace, Bool.or_eq_false_iff, decide_eq_false_iff_not]
      refine ⟨⟨⟨?_, ?_⟩, ?_⟩, ?_⟩ <;> (intro e; subst e; simp_all)
    rw [hws]
    set n := c.toNat with hn
    interval_cases n <;> decide
  · rw [if_neg h]

theorem toList_mk (l : List Char) : (String.mk l).toList = l := rfl

theorem string_mk_inj {l m : List Char} (h : String.mk l = String.mk m) : l = m := by
  injection h

theorem toList_jsToLower (s : String) : (jsToLower s).toList = s.toList.map Char.toLower := rfl

theorem jsTrim_toList (s : String) :
    (jsTrim s).toList
      = ((s.toList.dropWhile (·.isWhitespace)).reverse.dropWhile (·.isWhitespace)).reverse := rfl

theorem jsTrim_jsToLower (s : String) : jsTrim (jsToLower s) = jsToLower (jsTrim s) := by
  have hcomp : ((fun c : Char => c.isWhitespace) ∘ Char.toLower)
      = (fun c : Char => c.isWhitespace) := by
    funext c
    simp [Function.comp, whitespace_toLower]
  unfold jsTrim jsToLower
  simp only [toList_mk]
  rw [List.dropWhile_map, hcomp, ← List.map_reverse, List.dropWhile_map, hcomp,
    ← List.map_reverse]

theorem head?_dropWhile_not {α : Type} (p : α → Bool) :
    ∀ (l : List α) {a : α}, (l.dropWhile p).head? = some a → p a = false := by
  intro l
  induction l with
  | nil => intro a h; simp [List.dropWhile] at h
  | cons b l ih =>
    intro a h
    rw [List.dropWhile_cons] at h
    by_cases hb : p b
    · rw [if_pos hb] at h; exact ih h
    · rw [if_neg hb] at h
      simp only [List.head?_cons, Option.some.injEq] at h
      subst h
      exact Bool.eq_false_iff.mpr hb

theorem getLast?_dropWhile {α : Type} (p : α → Bool) :
    ∀ (l : List α), l.dropWhile p ≠ [] → (l.dropWhile p).getLast? = l.getLast? := by
  intro l
  induction l with
  | nil => intro h; simp [List.dropWhile] at h
  | cons b l ih =>
    intro h
    rw [List.dropWhile_cons]
    rw [List.dropWhile_cons] at h
    by_cases hb : p b
    · rw [if_pos hb] at h ⊢
      have hl : l ≠ [] := by
        intro e; subst e; simp [List.dropWhile] at h
      rw [ih h, List.getLast?_cons]
      cases he : l.getLast? with
      | none => exact absurd (List.getLast?_eq_none_iff.mp he) hl
      | some x => rfl
    · rw [if_neg hb]

theorem jsTrim_head_not_ws (s : String) {c : Char}
    (h : (jsTrim s).toList.head? = some c) : c.isWhitespace = false := by
  rw [jsTrim_toList, List.head?_reverse] at h
  set X := (s.toList.dropWhile (·.isWhitespace)).reverse with hX
  have hne : X.dropWhile (·.isWhitespace) ≠ [] := by
    intro e
    rw [e] at h
    simp at h
  rw [getLast?_dropWhile _ X hne, hX, List.getLast?_reverse] at h
  exact head?_dropWhile_not _ _ h

theorem jsTrim_getLast_not_ws (s : String) {c : Char}
    (h : (jsTrim s).toList.getLast? = some c) : c.isWhitespace = false := by
  rw [jsTrim_toList, List.getLast?_reverse] at h
  exact head?_dropWhile_not _ _ h

theorem jsToLower_ne_empty {s : String} (h : s ≠ "") : jsToLower s ≠ "" := by
  intro e
  apply h
  have h1 : s.toList.map Char.toLower = [] := string_mk_inj e
  have h2 : s.toList = [] := by simpa using h1
  cases s with
  | mk data =>
    simp only [toList_mk] at h2
    subst h2
    rfl

/-! ## Helper lemmas on the stable sort -/

theorem orderedInsert_congr {α : Type} {r s : α → α → Prop}
    [DecidableRel r] [DecidableRel s]
    (h : ∀ a b, r a b ↔ s a b) (a : α) :
    ∀ l : List α, l.orderedInsert r a = l.orderedInsert s a := by
  intro l
  induction l with
  | nil => rfl
  | cons b l ih =>
    simp only [List.orderedInsert]
    by_cases hr : r a b
    · rw [if_pos hr, if_pos ((h a b).mp hr)]
    · rw [if_neg hr, if_neg (fun hs => hr ((h a b).mpr hs)), ih]

theorem insertionSort_congr {α : Type} {r s : α → α → Prop}
    [DecidableRel r] [DecidableRel s]
    (h : ∀ a b, r a b ↔ s a b) :
    ∀ l : List α, l.insertionSort r = l.insertionSort s := by
  intro l
  induction l with
  | nil => rfl
  | cons b l ih =>
    simp only [List.insertionSort]
    rw [ih, orderedInsert_congr h]

/-! ## Claims C6 and C10: search and category filter -/

theorem toList_eq_nil_iff (s : String) : s.toList = [] ↔ s = "" := by
  constructor
  · intro h
    cases s with
    | mk data =>
      simp only [toList_mk] at h
      subst h
      rfl
  · intro h
    subst h
    rfl

theorem jsIncludes_empty {t : String} (h : t ≠ "") : jsIncludes "" t = false := by
  unfold jsIncludes
  simp only [decide_eq_false_iff_not]
  intro hinf
  have : t.toList = [] := List.infix_nil.mp hinf
  exact h ((toList_eq_nil_iff t).mp this)

theorem fieldMatches_eq_claim (s term : String) (ht : term ≠ "") :
    fieldMatches (some s) term = jsIncludes (jsToLower s) term := by
  simp only [fieldMatches]
  by_cases hs : s = ""
  · subst hs
    rw [if_pos rfl]
    have h0 : jsToLower "" = "" := rfl
    rw [h0, jsIncludes_empty ht]
  · rw [if_neg hs]

theorem searchMatches_eq_claim (it : Item) (term : String) (ht : term ≠ "") :
    searchMatches it term = claimSearchPred it term := by
  have hf : ∀ s, fieldMatches (some s) term = jsIncludes (jsToLower s) term :=
    fun s => fieldMatches_eq_claim s term ht
  have hfnone : fieldMatches none term = false := rfl
  unfold searchMatches searchableFields claimSearchPred
  simp only [List.any_cons, List.any_nil, Bool.or_false, hf]
  cases it.category <;> cases it.description <;> cases it.price <;>
    simp only [Option.map_some', Option.map_none', hfnone, hf, Bool.or_false, Bool.false_or] <;>
    simp [Bool.or_assoc]

attribute [local semireducible] Rat.add Rat.mul Rat.inv Rat.sub Rat.ofScientific in
/-- C6: for every item list and search string, the free-text search keeps
exactly the items for which one of name, category, description, stringified id
or stringified price case-insensitively contains the trimmed, lowercased term
as a substring; a query trimming to empty leaves the list unchanged; and the
query "TEST" over the router tests' items returns exactly the two "Test"
items. -/
theorem c6_search_substring_or_across_fields (items : List Item) (q : String) :
    (jsTrim q ≠ "" →
      searchItems items (some q)
        = items.filter (fun it => claimSearchPred it (jsToLower (jsTrim q))))
    ∧ (jsTrim q = "" → searchItems items (some q) = items)
    ∧ searchItems mockItems (some "TEST") = [testItem1, testItem2] := by
  refine ⟨?_, ?_, ?_⟩
  · intro h
    have hq : q ≠ "" := by
      intro e
      subst e
      exact h rfl
    simp only [searchItems]
    rw [if_neg (by simp [hq, h])]
    rw [jsTrim_jsToLower]
    apply List.filter_congr
    intro it _
    exact searchMatches_eq_claim it _ (jsToLower_ne_empty h)
  · intro h
    simp only [searchItems]
    rw [if_pos (Or.inr h)]
  · decide

attribute [local semireducible] Rat.add Rat.mul Rat.inv Rat.sub Rat.ofScientific in
theorem c6_witness :
    jsTrim "TEST" ≠ ""
    ∧ searchItems mockItems (some "TEST")
      = mockItems.filter (fun it => claimSearchPred it (jsToLower (jsTrim "TEST"))) := by
  refine ⟨by decide, ?_⟩
  exact (c6_search_substring_or_across_fields mockItems "TEST").1 (by decide)

theorem jsToLower_empty : jsToLower "" = "" := rfl

theorem categoryPred_eq_claim (it : Item) (c : String) (h : jsTrim c ≠ "") :
    categoryPred it c = claimCategoryPred it c := by
  have hlow : jsToLower (jsTrim c) ≠ "" := jsToLower_ne_empty h
  simp only [categoryPred, claimCategoryPred, jsTrim_jsToLower]
  cases it.category with
  | none => rfl
  | some ic =>
    by_cases hic : ic = ""
    · subst hic
      simp [jsToLower_empty, Ne.symm hlow]
    · simp [hic]

/-- C10: with a query category that is non-empty after trimming, the server's
category filter keeps exactly the items possessing a category whose lowercased
value equals the lowercased, trimmed query category; items without a category
are excluded, and an item category carrying leading or trailing whitespace is
never kept because the item side is compared untrimmed. -/
theorem c10_category_filter_exact_match (items : List Item) (c : String)
    (h : jsTrim c ≠ "") :
    applyCategoryFilter items (some c)
      = items.filter (fun it => claimCategoryPred it c)
    ∧ (∀ it ∈ applyCategoryFilter items (some c), it.category ≠ none)
    ∧ (∀ it ∈ items, ∀ ic, it.category = some ic →
        (∃ ch, (ic.toList.head? = some ch ∨ ic.toList.getLast? = some ch)
          ∧ ch.isWhitespace = true) →
        it ∉ applyCategoryFilter items (some c)) := by
  have hc : c ≠ "" := by
    intro e
    subst e
    exact h rfl
  have hfil : applyCategoryFilter items (some c)
      = items.filter (fun it => categoryPred it c) := by
    simp only [applyCategoryFilter]
    rw [if_neg (by simp [hc, h])]
  refine ⟨?_, ?_, ?_⟩
  · rw [hfil]
    apply List.filter_congr
    intro it _
    exact categoryPred_eq_claim it c h
  · intro it hit
    rw [hfil] at hit
    have := (List.mem_filter.mp hit).2
    simp only [categoryPred] at this
    cases he : it.category with
    | none => rw [he] at this; simp at this
    | some ic => simp [he]
  · intro it _ ic hcat hws hit
    rw [hfil] at hit
    have hp := (List.mem_filter.mp hit).2
    simp only [categoryPred, hcat] at hp
    by_cases hic : ic = ""
    · subst hic
      rw [if_pos rfl] at hp
      simp at hp
    · rw [if_neg hic] at hp
      have heq : jsToLower ic = jsTrim (jsToLower c) := by
        simpa using hp
      rw [jsTrim_jsToLower] at heq
      have hlists : (jsToLower ic).toList = (jsToLower (jsTrim c)).toList := by
        rw [heq]
      rw [toList_jsToLower, toList_jsToLower] at hlists
      obtain ⟨ch, hpos, hchws⟩ := hws
      rcases hpos with hhead | hlast
      · have h1 : (ic.toList.map Char.toLower).head? = some (Char.toLower ch) := by
          rw [List.head?_map, hhead]
          rfl
        rw [hlists, List.head?_map] at h1
        cases he2 : (jsTrim c).toList.head? with
        | none => rw [he2] at h1; simp at h1
        | some ch0 =>
          rw [he2] at h1
          simp only [Option.map_some', Option.some.injEq] at h1
          have hws0 : ch0.isWhitespace = false := jsTrim_head_not_ws c he2
          have : (Char.toLower ch0).isWhitespace = false := by
            rw [whitespace_toLower]; exact hws0
          rw [h1] at this
          rw [whitespace_toLower] at this
          rw [hchws] at this
          simp at this
      · have h1 : (ic.toList.map Char.toLower).getLast? = some (Char.toLower ch) := by
          rw [List.getLast?_map, hlast]
          rfl
        rw [hlists, List.getLast?_map] at h1
        cases he2 : (jsTrim c).toList.getLast? with
        | none => rw [he2] at h1; simp at h1
        | some ch0 =>
          rw [he2] at h1
          simp only [Option.map_some', Option.some.injEq] at h1
          have hws0 : ch0.isWhitespace = false := jsTrim_getLast_not_ws c he2
          have : (Char.toLower ch0).isWhitespace = false := by
            rw [whitespace_toLower]; exact hws0
          rw [h1] at this
          rw [whitespace_toLower] at this
          rw [hchws] at this
          simp at this

attribute [local semireducible] Rat.add Rat.mul Rat.inv Rat.sub Rat.ofScientific in
theorem c10_witness :
    jsTrim "Electronics " ≠ ""
    ∧ applyCategoryFilter mockItems (some "Electronics ")
      = mockItems.filter (fun it => claimCategoryPred it "Electronics ") := by
  refine ⟨by decide, ?_⟩
  exact (c10_category_filter_exact_match mockItems "Electronics " (by decide)).1

/-! ## Claim C9: stats computation -/

theorem foldl_price_sum (l : List Item) :
    ∀ a : Rat,
      l.foldl (fun acc cur => acc + (match cur.price with | some p => p | none => 0)) a
        = a + (l.map (fun it => it.price.getD 0)).sum := by
  induction l with
  | nil => intro a; simp
  | cons b l ih =>
    intro a
    simp only [List.foldl_cons, List.map_cons, List.sum_cons, ih]
    have hb : (match b.price with | some p => p | none => (0 : Rat)) = b.price.getD 0 := by
      cases b.price <;> rfl
    rw [hb]
    ring

theorem roundHalfAway_eq_jsMathRound {q : Rat} (h : 0 ≤ q) :
    roundHalfAwayFromZero q = jsMathRound q := by
  unfold roundHalfAwayFromZero jsMathRound
  rw [if_neg (not_lt.mpr h)]

/-- C9 (amended none needed): the computed stats have `total` equal to the item
count, `averagePrice = 0` for an empty collection, and otherwise — for any
collection respecting the data model's `price ≥ 0` — the average price equals
the price sum (absent prices defaulting to 0) divided by the count, rounded at
the cent boundary with round-half-away-from-zero. -/
theorem c9_stats_average (items : List Item)
    (h : ∀ it ∈ items, ∀ p, it.price = some p → 0 ≤ p) :
    (calculateStats items).total = items.length
    ∧ (items.length = 0 → (calculateStats items).averagePrice = 0)
    ∧ (calculateStats items).averagePrice = specAveragePrice items := by
  by_cases hn : items.length = 0
  · refine ⟨?_, ?_, ?_⟩ <;> simp [calculateStats, specAveragePrice, hn]
  · have hsum : (0 : Rat)
        ≤ (items.map (fun it => it.price.getD 0)).sum := by
      apply List.sum_nonneg
      intro x hx
      obtain ⟨it, hit, rfl⟩ := List.mem_map.mp hx
      cases hp : it.price with
      | none => simp
      | some p => simpa using h it hit p hp
    have hfold : items.foldl
        (fun acc cur => acc + (match cur.price with | some p => p | none => 0)) (0 : Rat)
        = (items.map (fun it => it.price.getD 0)).sum := by
      rw [foldl_price_sum]
      ring
    have hlen : (0 : Rat) < (items.length : Rat) := by
      have := Nat.pos_of_ne_zero hn
      exact_mod_cast this
    have hq : (0 : Rat)
        ≤ (items.map (fun it => it.price.getD 0)).sum / (items.length : Rat) * 100 := by
      apply mul_nonneg
      · exact div_nonneg hsum (le_of_lt hlen)
      · norm_num
    refine ⟨?_, ?_, ?_⟩
    · simp [calculateStats, hn]
    · intro h0; exact absurd h0 hn
    · simp only [calculateStats, specAveragePrice, hn, if_neg hn, hfold]
      rw [roundHalfAway_eq_jsMathRound hq]
      simp

attribute [local semireducible] Rat.add Rat.mul Rat.inv Rat.sub Rat.ofScientific in
theorem c9_witness :
    (∀ it ∈ mockItems, ∀ p, it.price = some p → 0 ≤ p)
    ∧ (calculateStats mockItems).averagePrice = specAveragePrice mockItems :=
  ⟨by decide, (c9_stats_average mockItems (by decide)).2.2⟩

/-! ## Claim C8: absent backing file is never an error -/

theorem searchItems_nil (q : Option String) : searchItems [] q = [] := by
  cases q with
  | none => rfl
  | some s => simp only [searchItems]; split <;> simp

theorem applyCategoryFilter_nil (c : Option String) : applyCategoryFilter [] c = [] := by
  cases c with
  | none => rfl
  | some s => simp only [applyCategoryFilter]; split <;> simp

theorem searchStage_nil (q : Option String) : searchStage [] q = [] := by
  cases q with
  | none => rfl
  | some s => simp only [searchStage]; split <;> simp [searchItems_nil]

theorem filteredSorted_nil (q category sortBy sortOrder : Option String) :
    filteredSorted [] q category sortBy sortOrder = [] := by
  simp [filteredSorted, applyCategoryFilter_nil, searchStage_nil, sortItems]

theorem itemsQuery_nil_items (q category sortBy sortOrder : Option String)
    (page limit : Option Int) :
    (itemsQuery [] q category sortBy sortOrder page limit).items = []
    ∧ (itemsQuery [] q category sortBy sortOrder page limit).pagination.totalItems = 0 := by
  constructor <;>
    simp [itemsQuery, filteredSorted_nil, paginateItems, jsSlice]

/-- C8: an absent backing file is never an error — `readData` yields the empty
collection on `ENOENT` and propagates any other failure; `GET /api/items` on an
absent or empty file answers with `items = []` and `totalItems = 0`; a stats
recompute finding the file absent fills the cache with zero stats and leaves it
valid, while any other read or parse failure during a recompute propagates and
is not cached. -/
theorem c8_absent_file_not_error (q category sortBy sortOrder : Option String)
    (page limit : Option Int) (e : String) (fs : FsView) (c : StatsCache) (now : Int) :
    readData .absent = .ok []
    ∧ readData (.fail e) = .error e
    ∧ (itemsIndexRoute .absent q category sortBy sortOrder page limit
        = .ok (itemsQuery [] q category sortBy sortOrder page limit))
    ∧ (itemsIndexRoute (.ok []) q category sortBy sortOrder page limit
        = .ok (itemsQuery [] q category sortBy sortOrder page limit))
    ∧ (itemsQuery [] q category sortBy sortOrder page limit).items = []
    ∧ (itemsQuery [] q category sortBy sortOrder page limit).pagination.totalItems = 0
    ∧ (isCacheValid c now = false → fs.read = .absent →
        statsGetRoute fs c now
          = (.ok { total := 0, averagePrice := 0 },
             { c with data := some { total := 0, averagePrice := 0 }, timestamp := now },
             true)
        ∧ isCacheValid
            { c with data := some { total := 0, averagePrice := 0 }, timestamp := now } now
            = true)
    ∧ (isCacheValid c now = false → fs.read = .fail e →
        statsGetRoute fs c now = (.error e, c, true)) := by
  refine ⟨rfl, rfl, rfl, rfl, (itemsQuery_nil_items q category sortBy sortOrder page limit).1,
    (itemsQuery_nil_items q category sortBy sortOrder page limit).2, ?_, ?_⟩
  · intro hv habs
    have hload : loadAndCacheStats fs c now
        = (.ok { total := 0, averagePrice := 0 },
           { c with data := some { total := 0, averagePrice := 0 }, timestamp := now }) := by
      simp only [loadAndCacheStats]
      cases hd : c.data with
      | none => simp [loadFreshStats, habs]
      | some d =>
        simp [hv, loadFreshStats, habs]
    constructor
    · simp only [statsGetRoute, hv]
      cases c.data <;> simp [hload]
    · simp [isCacheValid, CACHE_TTL]
  · intro hv hfail
    have hload : loadAndCacheStats fs c now = (.error e, c) := by
      simp only [loadAndCacheStats]
      cases hd : c.data with
      | none => simp [loadFreshStats, hfail]
      | some d =>
        simp [hv, loadFreshStats, hfail]
    simp only [statsGetRoute, hv]
    cases c.data <;> simp [hload]

theorem c8_witness :
    isCacheValid { data := none, timestamp := 0, fileModTime := 0 } 1000 = false
    ∧ statsGetRoute { mtime := none, read := .absent }
        { data := none, timestamp := 0, fileModTime := 0 } 1000
      = (.ok { total := 0, averagePrice := 0 },
         { data := some { total := 0, averagePrice := 0 }, timestamp := 1000, fileModTime := 0 },
         true) := by
  refine ⟨by decide, ?_⟩
  exact ((c8_absent_file_not_error none none none none none none "x"
    { mtime := none, read := .absent }
    { data := none, timestamp := 0, fileModTime := 0 } 1000).2.2.2.2.2.2.1
      (by decide) rfl).1

/-! ## Claim C2: stats cache serving policy -/

theorem isCacheValid_true_iff (c : StatsCache) (now : Int) :
    isCacheValid c now = true ↔ c.data.isSome = true ∧ now - c.timestamp ≤ CACHE_TTL := by
  unfold isCacheValid
  by_cases h : c.data.isNone ∨ now - c.timestamp > CACHE_TTL
  · rw [if_pos h]
    simp only [Bool.false_eq_true, false_iff]
    intro ⟨h1, h2⟩
    rcases h with h | h
    · rw [Option.isNone_iff_eq_none] at h
      rw [h] at h1
      simp at h1
    · exact absurd h2 (not_le.mpr h)
  · rw [if_neg h]
    push_neg at h
    simp only [true_iff]
    obtain ⟨h1, h2⟩ := h
    constructor
    · cases hd : c.data with
      | none => rw [hd] at h1; simp at h1
      | some d => simp
    · exact h2

/-- C2 counterexample: a cache state whose recorded file modification time
differs from the backing file's current one is still served from the cache
(without recompute) while the TTL has not elapsed — refuting the claim that a
cached value is served only when the recorded and current modification times
agree. -/
theorem c2_counterexample :
    getFileModTime { mtime := some 60, read := .ok [] }
        ≠ ({ data := some { total := 3, averagePrice := 5 }, timestamp := 0,
             fileModTime := 50 } : StatsCache).fileModTime
    ∧ (1000 : Int) - 0 ≤ CACHE_TTL
    ∧ statsGetRoute { mtime := some 60, read := .ok [] }
        { data := some { total := 3, averagePrice := 5 }, timestamp := 0, fileModTime := 50 }
        1000
      = (.ok { total := 3, averagePrice := 5 },
         { data := some { total := 3, averagePrice := 5 }, timestamp := 0, fileModTime := 50 },
         false) := by
  refine ⟨by decide, by decide, ?_⟩
  rfl

/-- C2 amended: `GET /api/stats` serves the cached value exactly when cached
data exists and the cache age is within the TTL; the backing file's
modification time is not consulted on that path (file-change invalidation is
the watcher's job), and two reads within the TTL with unchanged state return
the identical cached value with no recompute. -/
theorem c2_cache_serving_policy (fs : FsView) (c : StatsCache) (now : Int) :
    (∀ d, c.data = some d → now - c.timestamp ≤ CACHE_TTL →
        statsGetRoute fs c now = (.ok d, c, false))
    ∧ (c.data = none ∨ now - c.timestamp > CACHE_TTL →
        (statsGetRoute fs c now).2.2 = true)
    ∧ (∀ d now2, c.data = some d → now - c.timestamp ≤ CACHE_TTL →
        now2 - c.timestamp ≤ CACHE_TTL →
        statsGetRoute fs c now = statsGetRoute fs c now2
        ∧ statsGetRoute fs c now = (.ok d, c, false)) := by
  have hserve : ∀ d, c.data = some d → now - c.timestamp ≤ CACHE_TTL →
      statsGetRoute fs c now = (.ok d, c, false) := by
    intro d hd httl
    have hv : isCacheValid c now = true :=
      (isCacheValid_true_iff c now).mpr ⟨by simp [hd], httl⟩
    simp [statsGetRoute, hd, hv]
  refine ⟨hserve, ?_, ?_⟩
  · intro h
    have hv : isCacheValid c now = false := by
      cases hvv : isCacheValid c now with
      | false => rfl
      | true =>
        obtain ⟨h1, h2⟩ := (isCacheValid_true_iff c now).mp hvv
        rcases h with h | h
        · rw [h] at h1; simp at h1
        · exact absurd h2 (not_le.mpr h)
    simp only [statsGetRoute, hv]
    cases c.data <;> simp
  · intro d now2 hd httl httl2
    have h2 : statsGetRoute fs c now2 = (.ok d, c, false) := by
      have hv : isCacheValid c now2 = true :=
        (isCacheValid_true_iff c now2).mpr ⟨by simp [hd], httl2⟩
      simp [statsGetRoute, hd, hv]
    exact ⟨by rw [hserve d hd httl, h2], hserve d hd httl⟩

theorem c2_witness :
    ({ data := some { total := 2, averagePrice := 7 }, timestamp := 0,
       fileModTime := 0 } : StatsCache).data = some { total := 2, averagePrice := 7 }
    ∧ statsGetRoute { mtime := some 1, read := .ok [] }
        { data := some { total := 2, averagePrice := 7 }, timestamp := 0, fileModTime := 0 } 100
      = (.ok { total := 2, averagePrice := 7 },
         { data := some { total := 2, averagePrice := 7 }, timestamp := 0, fileModTime := 0 },
         false) :=
  ⟨rfl,
   (c2_cache_serving_policy { mtime := some 1, read := .ok [] }
      { data := some { total := 2, averagePrice := 7 }, timestamp := 0, fileModTime := 0 }
      100).1 { total := 2, averagePrice := 7 } rfl (by decide)⟩

/-! ## Claim C4: GET /api/items/:id validation and errors -/

/-- C4 counterexample: because the handler performs the file read before
validating the id, a failing read on a non-integer id produces the read
error (a 500), not the 400 "Invalid item ID" the claim promises regardless of
the read's outcome. -/
theorem c4_counterexample :
    getItemByIdRoute (.fail "Permission denied") "abc" = .err 500 "Permission denied"
    ∧ getItemByIdRoute (.fail "Permission denied") "abc" ≠ .err 400 "Invalid item ID" := by
  decide

/-- C4 amended: a path id whose `parseInt` is `NaN` yields 400 "Invalid item
ID" provided the read succeeds (file absence included); the read precedes
validation, so a failing read yields a 500 with the read error instead; an id
parsing to an integer not present in the collection yields 404 "Item not
found". -/
theorem c4_get_by_id_errors (data : List Item) (idStr : String) (e : String) :
    (jsParseInt idStr = none →
        getItemByIdRoute (.ok data) idStr = .err 400 "Invalid item ID"
        ∧ getItemByIdRoute .absent idStr = .err 400 "Invalid item ID")
    ∧ getItemByIdRoute (.fail e) idStr = .err 500 e
    ∧ (∀ n, jsParseInt idStr = some n → (∀ it ∈ data, (it.id : Int) ≠ n) →
        getItemByIdRoute (.ok data) idStr = .err 404 "Item not found") := by
  refine ⟨?_, rfl, ?_⟩
  · intro hp
    constructor <;> simp [getItemByIdRoute, readData, hp]
  · intro n hp hfresh
    have hfind : data.find? (fun i => (i.id : Int) == n) = none := by
      rw [List.find?_eq_none]
      intro it hit
      simp only [beq_iff_eq]
      exact hfresh it hit
    simp [getItemByIdRoute, readData, hp, hfind]

theorem c4_witness :
    getItemByIdRoute (.ok mockItems) "abc" = .err 400 "Invalid item ID"
    ∧ getItemByIdRoute (.ok mockItems) "999" = .err 404 "Item not found" :=
  ⟨((c4_get_by_id_errors mockItems "abc" "x").1 (by decide)).1,
   (c4_get_by_id_errors mockItems "999" "x").2.2 999 (by decide) (by decide)⟩

/-! ## Claim C5: create-then-fetch round trip -/

/-- C5 (spec-modelled creation): for a valid payload, creating an item appends
the built item — carrying the assigned id — to the collection, and fetching by
that id (when fresh in the collection) returns exactly the created object. -/
theorem c5_create_fetch_roundtrip (data : List Item) (p : NewItemPayload)
    (nowMs : Nat) (createdAt : String) (idStr : String) (nm : String)
    (hname : p.name = some nm) (hnm : jsTrim nm ≠ "")
    (hprice : ∀ pr, p.price = some pr → 0 ≤ pr)
    (hfresh : ∀ it ∈ data, it.id ≠ nowMs)
    (hparse : jsParseInt idStr = some (nowMs : Int)) :
    ∃ item, createItem data p nowMs createdAt = .ok (item, data ++ [item])
      ∧ item.id = nowMs
      ∧ getItemByIdRoute (.ok (data ++ [item])) idStr = .ok item := by
  have key : ∀ item : Item, item.id = nowMs →
      getItemByIdRoute (.ok (data ++ [item])) idStr = .ok item := by
    intro item hid
    have h1 : data.find? (fun i => (i.id : Int) == (nowMs : Int)) = none := by
      rw [List.find?_eq_none]
      intro it hit
      simp only [beq_iff_eq, Int.natCast_inj]
      exact hfresh it hit
    have hfind : (data ++ [item]).find? (fun i => (i.id : Int) == (nowMs : Int))
        = some item := by
      rw [List.find?_append, h1]
      simp [hid]
    simp [getItemByIdRoute, readData, hparse, hfind]
  refine Exists.intro
      { id := nowMs
        name := jsTrim nm
        price := p.price
        category := p.category.map jsTrim
        description := p.description.map jsTrim
        createdAt := some createdAt } ⟨?_, rfl, key _ rfl⟩
  simp only [createItem, hname]
  rw [if_neg hnm]
  cases hp : p.price with
  | none => rfl
  | some pr =>
    have hge : ¬ pr < 0 := not_lt.mpr (hprice pr hp)
    simp [hge]

theorem c5_witness :
    ∃ item, createItem mockItems
        { name := some "Integration Test Item", price := some 99.99 }
        1234567890 "2024-01-01T00:00:00.000Z" = .ok (item, mockItems ++ [item])
      ∧ item.id = 1234567890
      ∧ getItemByIdRoute (.ok (mockItems ++ [item])) "1234567890" = .ok item := by
  refine c5_create_fetch_roundtrip mockItems _ 1234567890 "2024-01-01T00:00:00.000Z"
      "1234567890" "Integration Test Item" rfl (by decide) ?_ (by decide) (by decide)
  intro pr hp
  simp only [Option.some.injEq] at hp
  rw [← hp]
  norm_num

/-! ## Claim C1: pagination contract -/

theorem effLimit_bounds (limit : Option Int) : 1 ≤ effLimit limit ∧ effLimit limit ≤ 100 := by
  unfold effLimit jsOrInt
  cases limit with
  | none => decide
  | some n =>
    by_cases h : n = 0 <;> simp [h]

theorem effPage_pos (page : Option Int) : 1 ≤ effPage page := by
  unfold effPage jsOrInt
  cases page with
  | none => decide
  | some n =>
    by_cases h : n = 0 <;> simp [h]

theorem jsSlice_nonneg {α : Type} (l : List α) (s lim : Int) (hs : 0 ≤ s) (hl : 0 ≤ lim) :
    jsSlice l s (s + lim) = (l.drop s.toNat).take lim.toNat := by
  dsimp only [jsSlice]
  rw [if_neg (not_lt.mpr hs), if_neg (by omega : ¬ s + lim < 0)]
  by_cases hbig : (l.length : Int) ≤ s
  · have h1 : min s (l.length : Int) = (l.length : Int) := min_eq_right hbig
    rw [h1]
    have hdrop : l.drop s.toNat = [] := by
      apply List.drop_eq_nil_of_le
      omega
    have hdrop2 : l.drop (l.length : Int).toNat = [] := by
      apply List.drop_eq_nil_of_le
      simp
    rw [hdrop, hdrop2]
    simp
  · push_neg at hbig
    have h1 : min s (l.length : Int) = s := min_eq_left (le_of_lt hbig)
    rw [h1]
    have h2 : (min (s + lim) (l.length : Int) - s).toNat
        = min lim.toNat (l.length - s.toNat) := by
      omega
    rw [h2]
    have h3 : (l.drop s.toNat).take (min lim.toNat (l.length - s.toNat))
        = (l.drop s.toNat).take lim.toNat := by
      have hlen : (l.drop s.toNat).length = l.length - s.toNat := List.length_drop _ _
      rw [List.take_eq_take]
      omega
    rw [h3]

theorem ceil_div_nat (t m : Nat) (hm : 0 < m) :
    ⌈(t : Rat) / (m : Rat)⌉ = (((t + m - 1) / m : Nat) : Int) := by
  have hm' : (0 : Rat) < (m : Rat) := by exact_mod_cast hm
  rw [Int.ceil_eq_iff]
  constructor
  · rw [lt_div_iff hm']
    have key2 : ((t + m - 1) / m) * m < t + m := by
      have key : ((t + m - 1) / m) * m ≤ t + m - 1 := Nat.div_mul_le_self _ _
      omega
    have key3 : ((((t + m - 1) / m : Nat) : Int) - 1) * (m : Int) < (t : Int) := by
      have key2' : (((t + m - 1) / m : Nat) : Int) * (m : Int) < (t : Int) + (m : Int) := by
        exact_mod_cast key2
      nlinarith [key2']
    push_cast
    exact_mod_cast key3
  · rw [div_le_iff hm']
    have hdm := Nat.div_add_mod (t + m - 1) m
    have hmod : (t + m - 1) % m < m := Nat.mod_lt _ hm
    have hcomm : m * ((t + m - 1) / m) = ((t + m - 1) / m) * m := Nat.mul_comm _ _
    have key : t ≤ ((t + m - 1) / m) * m := by omega
    exact_mod_cast key


/-- C1: the GET /api/items response satisfies the pagination contract: the
effective limit clamps to [1,100] with 0 falling back to the default 10 and
200 clamping to 100, the effective page clamps to at least 1, totalItems
equals resultsFound, the returned items are the slice window
[(page-1)*limit, (page-1)*limit+limit) of the filtered-and-sorted sequence,
items.length = min(limit, max(0, resultsFound - (page-1)*limit)), totalPages
is the ceiling of resultsFound/limit regardless of the requested page, and an
out-of-range page yields an empty items slice. -/
theorem c1_pagination_contract (data : List Item)
    (q category sortBy sortOrder : Option String) (page limit : Option Int) :
    (effLimit (some 0) = 10 ∧ effLimit (some 200) = 100
      ∧ 1 ≤ effLimit limit ∧ effLimit limit ≤ 100 ∧ 1 ≤ effPage page)
    ∧ (itemsQuery data q category sortBy sortOrder page limit).pagination.totalItems
        = (itemsQuery data q category sortBy sortOrder page limit).search.resultsFound
    ∧ (itemsQuery data q category sortBy sortOrder page limit).items
        = ((filteredSorted data q category sortBy sortOrder).drop
            (((effPage page - 1) * effLimit limit).toNat)).take ((effLimit limit).toNat)
    ∧ ((itemsQuery data q category sortBy sortOrder page limit).items.length : Int)
        = min (effLimit limit)
            (max 0 ((itemsQuery data q category sortBy sortOrder page limit).search.resultsFound
              - (effPage page - 1) * effLimit limit))
    ∧ (itemsQuery data q category sortBy sortOrder page limit).pagination.totalPages
        = ((((filteredSorted data q category sortBy sortOrder).length
              + (effLimit limit).toNat - 1) / (effLimit limit).toNat : Nat) : Int)
    ∧ ((effPage page - 1) * effLimit limit
          ≥ (itemsQuery data q category sortBy sortOrder page limit).search.resultsFound →
        (itemsQuery data q category sortBy sortOrder page limit).items = []) := by
  obtain ⟨hl1, hl2⟩ := effLimit_bounds limit
  have hp1 := effPage_pos page
  have hs0 : 0 ≤ (effPage page - 1) * effLimit limit :=
    mul_nonneg (by omega) (by omega)
  have hitems : (itemsQuery data q category sortBy sortOrder page limit).items
      = ((filteredSorted data q category sortBy sortOrder).drop
          (((effPage page - 1) * effLimit limit).toNat)).take ((effLimit limit).toNat) := by
    have hpag : (itemsQuery data q category sortBy sortOrder page limit).items
        = jsSlice (filteredSorted data q category sortBy sortOrder)
            ((effPage page - 1) * effLimit limit)
            ((effPage page - 1) * effLimit limit + effLimit limit) := rfl
    rw [hpag, jsSlice_nonneg _ _ _ hs0 (by omega)]
  have hrf : (itemsQuery data q category sortBy sortOrder page limit).search.resultsFound
      = ((filteredSorted data q category sortBy sortOrder).length : Int) := rfl
  refine ⟨⟨by decide, by decide, hl1, hl2, hp1⟩, rfl, hitems, ?_, ?_, ?_⟩
  · rw [hitems, hrf]
    have hlen : (((filteredSorted data q category sortBy sortOrder).drop
          (((effPage page - 1) * effLimit limit).toNat)).take
            ((effLimit limit).toNat)).length
        = min ((effLimit limit).toNat)
            ((filteredSorted data q category sortBy sortOrder).length
              - ((effPage page - 1) * effLimit limit).toNat) := by
      simp [List.length_take, List.length_drop]
    rw [hlen]
    omega
  · have htp : (itemsQuery data q category sortBy sortOrder page limit).pagination.totalPages
        = jsCeil (((filteredSorted data q category sortBy sortOrder).length : Rat)
            / ((effLimit limit : Int) : Rat)) := rfl
    rw [htp]
    have hcast : ((effLimit limit : Int) : Rat) = (((effLimit limit).toNat : Nat) : Rat) := by
      rw_mod_cast [Int.toNat_of_nonneg (by omega : (0 : Int) ≤ effLimit limit)]
    rw [jsCeil, hcast]
    exact ceil_div_nat _ _ (by omega)
  · intro hout
    rw [hitems]
    have hdrop : (filteredSorted data q category sortBy sortOrder).drop
        (((effPage page - 1) * effLimit limit).toNat) = [] := by
      apply List.drop_eq_nil_of_le
      rw [hrf] at hout
      omega
    rw [hdrop]
    simp

attribute [local semireducible] Rat.add Rat.mul Rat.inv Rat.sub Rat.ofScientific in
theorem c1_witness :
    (effPage (some 5) - 1) * effLimit (some 2)
        ≥ (itemsQuery mockItems none none none none (some 5) (some 2)).search.resultsFound
    ∧ (itemsQuery mockItems none none none none (some 5) (some 2)).items = [] :=
  ⟨by decide,
   (c1_pagination_contract mockItems none none none none (some 5) (some 2)).2.2.2.2.2
     (by decide)⟩

/-! ## Claim C3: client mirror vs server pipeline -/

theorem clientSearchStage_eq (items : List Item) (q : Option String) :
    clientSearchStage items q = searchStage items q := by
  cases q with
  | none => rfl
  | some s =>
    simp only [clientSearchStage, searchStage, searchItems]
    by_cases hs : s = ""
    · simp [hs]
    · by_cases ht : jsTrim s = "" <;> simp [hs, ht]

theorem categoryPred_client_eq (it : Item) (c : String) (hc : jsTrim c = c) :
    categoryPred it c = clientCategoryPred it c := by
  simp only [categoryPred, clientCategoryPred]
  cases it.category with
  | none => rfl
  | some ic =>
    have h1 : jsTrim (jsToLower c) = jsToLower c := by
      rw [jsTrim_jsToLower, hc]
    simp [h1]

theorem clientCategoryStage_eq (items : List Item) (category : Option String)
    (hcat : category = none ∨ ∃ c, category = some c ∧ c ≠ "" ∧ jsTrim c = c) :
    clientCategoryStage items category = applyCategoryFilter items category := by
  rcases hcat with rfl | ⟨c, rfl, hc, hct⟩
  · rfl
  · simp only [clientCategoryStage, applyCategoryFilter]
    rw [if_neg hc, if_neg (by simp [hc, hct ▸ hc])]
    apply List.filter_congr
    intro it _
    exact (categoryPred_client_eq it c hct).symm

theorem stage_comm (items : List Item) (q category : Option String) :
    searchStage (applyCategoryFilter items category) q
      = applyCategoryFilter (searchStage items q) category := by
  cases category with
  | none => rfl
  | some c =>
    simp only [applyCategoryFilter]
    by_cases hc : c = "" ∨ jsTrim c = ""
    · rw [if_pos hc, if_pos hc]
    · rw [if_neg hc, if_neg hc]
      cases q with
      | none => rfl
      | some s =>
        simp only [searchStage]
        by_cases hs : s = ""
        · rw [if_pos hs, if_pos hs]
        · rw [if_neg hs, if_neg hs]
          simp only [searchItems]
          by_cases hs2 : s = "" ∨ jsTrim s = ""
          · rw [if_pos hs2, if_pos hs2]
          · rw [if_neg hs2, if_neg hs2]
            rw [List.filter_filter, List.filter_filter]
            apply List.filter_congr
            intro it _
            exact Bool.and_comm _ _

theorem clientComparator_eq (f o : String) (ho : o = "asc" ∨ o = "desc") (a b : Item) :
    clientItemComparator f o a b = itemComparator f (effSortDesc o) a b := by
  rcases ho with rfl | rfl
  · have hd : effSortDesc "asc" = false := by decide
    simp [clientItemComparator, itemComparator, hd]
  · have hd : effSortDesc "desc" = true := by decide
    simp [clientItemComparator, itemComparator, hd]

theorem clientSortStage_eq (items : List Item) (f o : String)
    (hf : f ∈ validSortFields) (ho : o = "asc" ∨ o = "desc") :
    clientSortStage items f o = sortItems items f o := by
  have hfne : f ≠ "" := by
    fin_cases hf <;> decide
  have heff : effSortField f = f := by
    unfold effSortField
    rw [if_pos (by simpa using hf)]
  unfold clientSortStage sortItems
  by_cases hempty : items.isEmpty
  · rw [if_pos (Or.inr hempty)]
    have : items = [] := by
      cases items with
      | nil => rfl
      | cons a l => simp at hempty
    subst this
    rfl
  · rw [if_neg (by simp [hfne, hempty])]
    rw [heff]
    apply insertionSort_congr
    intro a b
    unfold clientSortLe sortLe
    rw [clientComparator_eq f o ho a b]

attribute [local semireducible] Rat.add Rat.mul Rat.inv Rat.sub Rat.ofScientific in
/-- C3 counterexample: with no query parameters at all, the server's default
page size is 10 while the client mirror's is 12, so the two pipelines already
disagree on the pagination metadata of the empty collection. -/
theorem c3_counterexample :
    clientQuery [] none none none none none none
        ≠ itemsQuery [] none none none none none none
    ∧ (clientQuery [] none none none none none none).pagination.itemsPerPage = 12
    ∧ (itemsQuery [] none none none none none none).pagination.itemsPerPage = 10 := by
  refine ⟨?_, by decide, by decide⟩
  intro h
  have h12 : (clientQuery [] none none none none none none).pagination.itemsPerPage = 12 := by
    decide
  rw [h] at h12
  have h10 : (itemsQuery [] none none none none none none).pagination.itemsPerPage = 10 := by
    decide
  rw [h12] at h10
  exact absurd h10 (by decide)

/-- C3 amended: the client mirror reproduces the server pipeline only on
queries where the sources do not diverge: category absent, or non-empty and
already trimmed (the client does not trim it); sortBy absent or a recognized
sort field (the client never falls back to id); sortOrder absent or exactly
"asc"/"desc" (the client treats anything but "asc" as descending, the server
anything but "desc" as ascending); page absent or at least 1 (the client does
not clamp); and limit given as an integer in [1,100] (the client neither
clamps nor shares the server's default of 10 — its default is 12). Under those
conditions the full responses — ordered items page, resultsFound and all
pagination metadata — coincide. -/
theorem c3_client_mirror_parity (rawItems : List Item)
    (q category sortBy sortOrder : Option String) (page limit : Option Int)
    (hcat : category = none ∨ ∃ c, category = some c ∧ c ≠ "" ∧ jsTrim c = c)
    (hsb : sortBy = none ∨ ∃ f, sortBy = some f ∧ f ∈ validSortFields)
    (hso : sortOrder = none ∨ sortOrder = some "asc" ∨ sortOrder = some "desc")
    (hpage : page = none ∨ ∃ p, page = some p ∧ 1 ≤ p)
    (hlim : ∃ l, limit = some l ∧ 1 ≤ l ∧ l ≤ 100) :
    clientQuery rawItems q category sortBy sortOrder page limit
      = itemsQuery rawItems q category sortBy sortOrder page limit := by
  obtain ⟨l, rfl, hl1, hl100⟩ := hlim
  have hsbv : sortBy.getD "id" ∈ validSortFields := by
    rcases hsb with rfl | ⟨f, rfl, hf⟩
    · decide
    · simpa using hf
  have hsov : sortOrder.getD "asc" = "asc" ∨ sortOrder.getD "asc" = "desc" := by
    rcases hso with rfl | rfl | rfl <;> simp
  have hfiltered : processItemsClientSide rawItems q category sortBy sortOrder
      = filteredSorted rawItems q category sortBy sortOrder := by
    unfold processItemsClientSide filteredSorted
    rw [clientSearchStage_eq, clientCategoryStage_eq _ _ hcat, stage_comm,
      clientSortStage_eq _ _ _ hsbv hsov]
  have hpageEq : jsOrInt page 1 = effPage page := by
    rcases hpage with rfl | ⟨p, rfl, hp⟩
    · decide
    · simp only [effPage, jsOrInt]
      rw [if_neg (by omega : ¬ p = 0)]
      omega
  have hlimEq : jsOrInt (some l) 12 = effLimit (some l) := by
    simp only [effLimit, jsOrInt]
    rw [if_neg (by omega : ¬ l = 0), if_neg (by omega : ¬ l = 0)]
    omega
  have hsbEq : jsOrStr sortBy "id" = sortBy.getD "id" := by
    rcases hsb with rfl | ⟨f, rfl, hf⟩
    · rfl
    · have hne : f ≠ "" := by fin_cases hf <;> decide
      simp [jsOrStr, hne]
  have hsoEq : jsOrStr sortOrder "asc" = sortOrder.getD "asc" := by
    rcases hso with rfl | rfl | rfl <;> simp [jsOrStr]
  unfold clientQuery itemsQuery paginateItems
  rw [hfiltered, hpageEq, hlimEq, hsbEq, hsoEq]

attribute [local semireducible] Rat.add Rat.mul Rat.inv Rat.sub Rat.ofScientific in
theorem c3_witness :
    clientQuery mockItems (some "item") (some "electronics") (some "name") (some "desc")
        (some 1) (some 2)
      = itemsQuery mockItems (some "item") (some "electronics") (some "name") (some "desc")
        (some 1) (some 2) :=
  c3_client_mirror_parity mockItems (some "item") (some "electronics") (some "name")
    (some "desc") (some 1) (some 2)
    (Or.inr ⟨"electronics", rfl, by decide, by decide⟩)
    (Or.inr ⟨"name", rfl, by decide⟩)
    (Or.inr (Or.inr rfl))
    (Or.inr ⟨1, rfl, by decide⟩)
    ⟨2, rfl, by decide, by decide⟩

end Catalog
